import Mathlib

/-!
Verification development for the reachy-brain repository.

This file shallowly embeds the two core components of the repository —
the face-identity registry (`src/face_registry.py`) and the
voice-activity audio accumulator (`src/wireless_voice.py`), together
with the microphone generator gating of `src/audio.py` — and proves or
refutes the frozen specification claims about them.

Modelling conventions:
* numpy float vectors become `List ℚ`; the source compares L2 norms
  (`np.linalg.norm`) against `MATCH_THRESHOLD = 0.6` and against each
  other.  Since `Real.sqrt` is strictly monotone on nonnegative inputs,
  every comparison of norms in the source is equivalent to the same
  comparison of squared norms, so the model works with squared L2
  distances and the squared threshold `0.36 = 9/25` throughout.
* `uuid.uuid4().hex[:8]` (a fresh random identifier) is modelled by a
  counter `next_uid` in the state; `_create_new_user` mints
  `"user_" ++ toString next_uid` and increments the counter.  Freshness
  of uuid4 outputs corresponds to the minted name not being in use.
* file I/O (`REGISTRY_PATH.write_text`) is modelled by a `storage`
  field holding the last successfully written document and a `write_ok`
  flag for the environment (disk) accepting writes.  A failing write in
  the source raises `OSError`; fallible operations therefore return
  `Except RegState _`, where the `error` payload carries the in-memory
  state at the moment the exception propagates (Python keeps all
  mutations made before the raise).
* int16 PCM audio samples become `List ℤ`.  The source computes
  `energy = sqrt(mean(samples^2))` in float32 and compares
  `energy > threshold`; the model compares exactly:
  `threshold^2 * n < sum(samples^2)`, which for nonempty frames is the
  same comparison (multiplying both sides of the squared comparison by
  `n > 0`), and for an empty frame yields `false`, matching numpy
  (`mean([])` is NaN and `NaN > t` is `False`).
-/

namespace ReachyBrain

/-- A face embedding vector (numpy float array in the source). -/
abbrev Emb := List ℚ

/-- `MATCH_THRESHOLD = 0.6` from `face_registry.py`, squared: `0.36`. -/
def MATCH_THRESHOLD_SQ : ℚ := 9 / 25

/-- `MAX_EMBEDDINGS_PER_USER = 10` from `face_registry.py`. -/
def MAX_EMBEDDINGS_PER_USER : Nat := 10

/-- `NEW_USER_CONSECUTIVE_MISSES = 3` from `face_registry.py`. -/
def NEW_USER_CONSECUTIVE_MISSES : Nat := 3

/-- Squared L2 distance between two vectors:
`np.linalg.norm(a - b) ** 2` = sum of squared componentwise
differences. -/
def dist2 : Emb → Emb → ℚ
  | a :: as, b :: bs => (a - b) ^ 2 + dist2 as bs
  | _, _ => 0

/-- `RegisteredFace` dataclass from `face_registry.py`. -/
structure RegisteredFace where
  user_id : String
  embeddings : List Emb
deriving DecidableEq

/-- Minimum of a nonempty list of rationals (Python `min(...)`); the
source raises `ValueError` on an empty generator, which is unreachable
because a registered face always holds at least one embedding — the
`[]` case is given the junk value `0` and is never relied upon. -/
def listMin : List ℚ → ℚ
  | [] => 0
  | d :: ds => ds.foldl min d

/-- `RegisteredFace.best_distance`: minimum (squared) L2 distance of
`e` to the stored embeddings. -/
def bestDist2 (f : RegisteredFace) (e : Emb) : ℚ :=
  listMin (f.embeddings.map (dist2 e))

/-- `RegisteredFace.add_embedding`: drop the oldest stored embedding
(`pop(0)`) when the list is at capacity, then append the new one. -/
def addEmbedding (e : Emb) (f : RegisteredFace) : RegisteredFace :=
  { f with embeddings :=
      (if MAX_EMBEDDINGS_PER_USER ≤ f.embeddings.length
        then f.embeddings.tail else f.embeddings) ++ [e] }

/-- The `FaceRegistry` dataclass state, together with the modelled
persistence environment (see the header comment). -/
structure RegState where
  faces : List RegisteredFace
  last_identified_user : Option String
  consecutive_misses : Nat
  last_miss_embedding : Option Emb
  next_uid : Nat
  write_ok : Bool
  storage : Option (List (String × List Emb))
deriving DecidableEq

/-- The registry document written by `FaceRegistry.save`: per face its
`user_id` and embedding list. -/
def serializeFaces (fs : List RegisteredFace) : List (String × List Emb) :=
  fs.map (fun f => (f.user_id, f.embeddings))

/-- `FaceRegistry.save`: write the serialized face list to disk.  A
failing write raises in the source; the error payload carries the
unchanged in-memory state. -/
def save (st : RegState) : Except RegState RegState :=
  if st.write_ok then .ok { st with storage := some (serializeFaces st.faces) }
  else .error st

/-- A fresh empty registry with a working disk, as produced by
`FaceRegistry.load` when no registry file exists. -/
def initState : RegState :=
  { faces := [], last_identified_user := none, consecutive_misses := 0,
    last_miss_embedding := none, next_uid := 0, write_ok := true,
    storage := none }

/-- `FaceRegistry._create_new_user`: mint a fresh id; when an embedding
is supplied, append a new face and save (the save runs before
`_last_identified_user` is assigned, so a raising save leaves the
last-user fields untouched but the face appended). -/
def createNewUser (embO : Option Emb) (st : RegState) :
    Except RegState (String × RegState) :=
  let uid := "user_" ++ toString st.next_uid
  let st0 := { st with next_uid := st.next_uid + 1 }
  match embO with
  | some e =>
    let st1 := { st0 with faces := st0.faces ++ [⟨uid, [e]⟩] }
    match save st1 with
    | .error st2 => .error st2
    | .ok st2 =>
      .ok (uid, { st2 with last_identified_user := some uid,
                           last_miss_embedding := none })
  | none =>
    .ok (uid, { st0 with last_identified_user := some uid,
                         last_miss_embedding := none })

/-- The scan loop of `FaceRegistry.identify` (lines 101–105): walk the
face list keeping the best (strictly smaller) distance seen so far,
starting from `best_match = None, best_dist = inf`.  It returns the
first face attaining the minimum `best_distance`, its index, and that
distance — `none` exactly when the face list is empty. -/
def scanBest (e : Emb) : List RegisteredFace → Option (RegisteredFace × Nat × ℚ)
  | [] => none
  | f :: fs =>
    let d := bestDist2 f e
    match scanBest e fs with
    | none => some (f, 0, d)
    | some (bf, j, bd) => if bd < d then some (bf, j + 1, bd) else some (f, 0, d)

/-- The no-match path of `FaceRegistry.identify` (lines 117–133):
bump `_consecutive_misses`, remember the miss embedding, create a new
user after `NEW_USER_CONSECUTIVE_MISSES` misses, otherwise stick with
the last identified user when one is set (Python truthiness: the empty
string also counts as unset). -/
def identifyMiss (e : Emb) (st : RegState) : Except RegState (String × RegState) :=
  let st1 := { st with consecutive_misses := st.consecutive_misses + 1,
                       last_miss_embedding := some e }
  if NEW_USER_CONSECUTIVE_MISSES ≤ st1.consecutive_misses then
    createNewUser (some e) { st1 with consecutive_misses := 0 }
  else
    match st1.last_identified_user with
    | some u => if u = "" then createNewUser (some e) st1 else .ok (u, st1)
    | none => createNewUser (some e) st1

/-- `FaceRegistry.identify`. -/
def identify (embO : Option Emb) (st : RegState) :
    Except RegState (String × RegState) :=
  match embO with
  | none =>
    match st.last_identified_user with
    | some u => if u = "" then createNewUser none st else .ok (u, st)
    | none => createNewUser none st
  | some e =>
    match scanBest e st.faces with
    | some (bf, i, bd) =>
      if bd < MATCH_THRESHOLD_SQ then
        let st1 := { st with
          last_identified_user := some bf.user_id,
          consecutive_misses := 0,
          last_miss_embedding := none,
          faces := st.faces.set i (addEmbedding e bf) }
        match save st1 with
        | .error st2 => .error st2
        | .ok st2 => .ok (bf.user_id, st2)
      else identifyMiss e st
    | none => identifyMiss e st

/-- `FaceRegistry.list_users`. -/
def list_users (st : RegState) : List String :=
  st.faces.map (fun f => f.user_id)

/-- Update the first face whose `user_id` matches, as the `for` loop of
`register_user` does; `none` when no face matches. -/
def updateFirst (uid : String) (e : Emb) :
    List RegisteredFace → Option (List RegisteredFace)
  | [] => none
  | f :: fs =>
    if f.user_id = uid then some (addEmbedding e f :: fs)
    else (updateFirst uid e fs).map (f :: ·)

/-- `FaceRegistry.register_user`. -/
def register_user (uid : String) (e : Emb) (st : RegState) :
    Except RegState (Bool × RegState) :=
  match updateFirst uid e st.faces with
  | some fs' =>
    match save { st with faces := fs' } with
    | .error st2 => .error st2
    | .ok st2 => .ok (true, st2)
  | none =>
    match save { st with faces := st.faces ++ [⟨uid, [e]⟩] } with
    | .error st2 => .error st2
    | .ok st2 => .ok (true, st2)

/-- Remove the first face whose `user_id` matches (`self._faces.pop(i)`
at the first match of the `delete_user` loop); `none` when no face
matches. -/
def removeFirst (uid : String) :
    List RegisteredFace → Option (List RegisteredFace)
  | [] => none
  | f :: fs =>
    if f.user_id = uid then some fs
    else (removeFirst uid fs).map (f :: ·)

/-- `FaceRegistry.delete_user`. -/
def delete_user (uid : String) (st : RegState) :
    Except RegState (Bool × RegState) :=
  match removeFirst uid st.faces with
  | some fs' =>
    match save { st with faces := fs' } with
    | .error st2 => .error st2
    | .ok st2 => .ok (true, st2)
  | none => .ok (false, st)

/-- Run a sequence of `identify` calls, collecting the returned user
ids; a raised exception aborts the remainder of the sequence. -/
def runCalls : List (Option Emb) → RegState → List String × RegState
  | [], st => ([], st)
  | e :: es, st =>
    match identify e st with
    | .ok (u, st') =>
      let (us, st'') := runCalls es st'
      (u :: us, st'')
    | .error st' => ([], st')

/-- A mutating registry operation, for stating registry invariants over
arbitrary operation sequences. -/
inductive RegOp where
  | identifyOp : Option Emb → RegOp
  | registerOp : String → Emb → RegOp
  | deleteOp : String → RegOp
deriving DecidableEq

/-- The in-memory state after an operation, whether it returned
normally or raised out of a failing save (the Python object keeps the
mutations made before the raise either way). -/
def applyOp (st : RegState) : RegOp → RegState
  | .identifyOp e =>
    match identify e st with
    | .ok (_, st') => st'
    | .error st' => st'
  | .registerOp u e =>
    match register_user u e st with
    | .ok (_, st') => st'
    | .error st' => st'
  | .deleteOp u =>
    match delete_user u st with
    | .ok (_, st') => st'
    | .error st' => st'

/-- Fold a sequence of registry operations over a state. -/
def runOps (st : RegState) (ops : List RegOp) : RegState :=
  ops.foldl applyOp st

/-- Per-user embedding-capacity invariant of the registry. -/
def capInv (st : RegState) : Prop :=
  ∀ f ∈ st.faces, f.embeddings.length ≤ MAX_EMBEDDINGS_PER_USER

/-- The face list of the state an operation leaves behind, whether it
returned normally or raised. -/
def resFaces {α : Type} : Except RegState (α × RegState) → List RegisteredFace
  | .ok (_, st) => st.faces
  | .error st => st.faces

/-! ## Audio accumulator (`AudioBuffer` in `src/wireless_voice.py`) -/

/-- The speech/silence classification of `AudioBuffer.add_frame`:
`energy > energy_threshold` with `energy = sqrt(mean(samples^2))`,
compared exactly via `threshold^2 * n < sum(samples^2)` (see header). -/
def isSpeech (thr : ℤ) (f : List ℤ) : Bool :=
  decide (thr ^ 2 * (f.length : ℤ) < (f.map (fun s => s * s)).sum)

/-- `AudioBuffer` state and configuration. -/
structure AudioBuffer where
  sample_rate : Nat
  frames : List (List ℤ)
  is_speaking : Bool
  silence_frames : Nat
  speech_frames : Nat
  energy_threshold : ℤ
  min_speech_frames : Nat
  max_silence_frames : Nat
deriving DecidableEq

/-- `AudioBuffer.__init__` defaults: 48 kHz, threshold 500, hysteresis
5 speech frames, flush after 25 silence frames. -/
def initBuf : AudioBuffer :=
  { sample_rate := 48000, frames := [], is_speaking := false,
    silence_frames := 0, speech_frames := 0, energy_threshold := 500,
    min_speech_frames := 5, max_silence_frames := 25 }

/-- Every third sample (`samples[::3]`, the 48 kHz → 16 kHz decimation
of `_get_audio`). -/
def everyThird : List ℤ → List ℤ
  | [] => []
  | [a] => [a]
  | [a, _] => [a]
  | a :: _ :: _ :: rest => a :: everyThird rest

/-- `AudioBuffer._get_audio` on a frame list: empty frames give empty
audio; otherwise the frames are concatenated and, at 48 kHz, decimated
by 3.  (The WAV container written around the samples is a pure
serialization and is not modelled.) -/
def getAudioFrames (rate : Nat) (frames : List (List ℤ)) : List ℤ :=
  if frames = [] then []
  else if rate = 48000 then everyThird frames.flatten else frames.flatten

/-- `AudioBuffer._reset`. -/
def resetBuf (b : AudioBuffer) : AudioBuffer :=
  { b with frames := [], is_speaking := false, silence_frames := 0,
           speech_frames := 0 }

/-- `AudioBuffer.add_frame`: classify the frame, update the hysteresis
counters, accumulate while speaking, and flush the utterance when the
silence run reaches `max_silence_frames`. -/
def addFrame (b : AudioBuffer) (f : List ℤ) : Option (List ℤ) × AudioBuffer :=
  let b :=
    if isSpeech b.energy_threshold f then
      let b := { b with speech_frames := b.speech_frames + 1, silence_frames := 0 }
      if b.min_speech_frames ≤ b.speech_frames then { b with is_speaking := true }
      else b
    else { b with silence_frames := b.silence_frames + 1 }
  if b.is_speaking then
    let b := { b with frames := b.frames ++ [f] }
    if b.max_silence_frames ≤ b.silence_frames then
      (some (getAudioFrames b.sample_rate b.frames), resetBuf b)
    else (none, b)
  else (none, b)

/-- Feed a frame sequence to the accumulator, collecting the per-call
results of `add_frame`. -/
def runFrames : List (List ℤ) → AudioBuffer → List (Option (List ℤ)) × AudioBuffer
  | [], b => ([], b)
  | f :: fs, b =>
    let (o, b') := addFrame b f
    let (os, b'') := runFrames fs b'
    (o :: os, b'')

/-! ## Microphone generator gating (`AudioStream.audio_generator` in
`src/audio.py`) -/

/-- The empty-read bookkeeping of `audio_generator`: bump
`_empty_read_count`; at `_max_empty_reads = 25` restart the input
stream and zero the counter.  No chunk is yielded. -/
def genEmpty (c : Nat) : Option (List ℤ) × Nat :=
  if 25 ≤ c + 1 then (none, 0) else (none, c + 1)

/-- One iteration of the `audio_generator` loop body, given the
`_is_speaking` flag observed at the top of the iteration and the result
of `read_audio` (`none` for `None`, `some []` for an empty chunk —
both falsy in `if not chunk`).  Returns the yielded chunk, if any, and
the updated empty-read counter.  While the robot speaks the read is
performed and its result discarded, the counter untouched. -/
def genStep (speaking : Bool) (r : Option (List ℤ)) (c : Nat) :
    Option (List ℤ) × Nat :=
  if speaking then (none, c)
  else
    match r with
    | some ch => if ch.isEmpty then genEmpty c else (some ch, 0)
    | none => genEmpty c

/-- Run the generator loop over a schedule of (observed `_is_speaking`,
read result) pairs, collecting the yielded chunks. -/
def runGen : List (Bool × Option (List ℤ)) → Nat → List (List ℤ) × Nat
  | [], c => ([], c)
  | (sp, r) :: rest, c =>
    let (y, c') := genStep sp r c
    let (ys, c'') := runGen rest c'
    match y with
    | some ch => (ch :: ys, c'')
    | none => (ys, c'')

/-- An `AudioBuffer` with the `__init__` configuration and the given
transient fields, for stating run lemmas. -/
def mkBuf (F : List (List ℤ)) (sp : Bool) (si s : Nat) : AudioBuffer :=
  { sample_rate := 48000, frames := F, is_speaking := sp,
    silence_frames := si, speech_frames := s, energy_threshold := 500,
    min_speech_frames := 5, max_silence_frames := 25 }

/-- The C4 scenario run: register `"kaya"`, confirm a match on its
embedding, delete `"kaya"`, then identify the formerly stored
embedding again; returns (found-on-delete, finally returned user). -/
def c4_run : Except RegState (Bool × String) :=
  match register_user "kaya" [0] initState with
  | .error st => .error st
  | .ok (_, st1) =>
    match identify (some [0]) st1 with
    | .error st => .error st
    | .ok (_, st2) =>
      match delete_user "kaya" st2 with
      | .error st => .error st
      | .ok (found, st3) =>
        match identify (some [0]) st3 with
        | .error st => .error st
        | .ok (u, _) => .ok (found, u)

/-- A registry holding one face for `"kaya"` on a disk that rejects
writes, for the persistence-failure claims. -/
def c3_state : RegState :=
  { initState with faces := [⟨"kaya", [[0]]⟩], write_ok := false }

/-! ## Helper lemmas: distances and the scan loop -/

theorem foldl_min_le_init (l : List ℚ) : ∀ a : ℚ, l.foldl min a ≤ a := by
  induction l with
  | nil => intro a; simp
  | cons x xs ih =>
    intro a
    calc (x :: xs).foldl min a = xs.foldl min (min a x) := rfl
    _ ≤ min a x := ih (min a x)
    _ ≤ a := min_le_left a x

theorem foldl_min_le_mem (l : List ℚ) :
    ∀ a x : ℚ, x ∈ l → l.foldl min a ≤ x := by
  induction l with
  | nil => intro a x hx; cases hx
  | cons y ys ih =>
    intro a x hx
    rcases List.mem_cons.mp hx with h | h
    · subst h
      calc (x :: ys).foldl min a = ys.foldl min (min a x) := rfl
      _ ≤ min a x := foldl_min_le_init ys (min a x)
      _ ≤ x := min_le_right a x
    · exact ih (min a y) x h

theorem foldl_min_nonneg (l : List ℚ) :
    ∀ a : ℚ, 0 ≤ a → (∀ x ∈ l, 0 ≤ x) → 0 ≤ l.foldl min a := by
  induction l with
  | nil => intro a ha _; simpa using ha
  | cons y ys ih =>
    intro a ha hl
    have hy : 0 ≤ y := hl y (List.mem_cons_self y ys)
    exact ih (min a y) (le_min ha hy) (fun x hx => hl x (List.mem_cons_of_mem y hx))

theorem listMin_nonneg (l : List ℚ) (h : ∀ x ∈ l, 0 ≤ x) : 0 ≤ listMin l := by
  cases l with
  | nil => simp [listMin]
  | cons d ds =>
    exact foldl_min_nonneg ds d (h d (List.mem_cons_self d ds))
      (fun x hx => h x (List.mem_cons_of_mem d hx))

theorem listMin_le_mem (l : List ℚ) (x : ℚ) (hx : x ∈ l) : listMin l ≤ x := by
  cases l with
  | nil => cases hx
  | cons d ds =>
    rcases List.mem_cons.mp hx with h | h
    · subst h; exact foldl_min_le_init ds x
    · exact foldl_min_le_mem ds d x h

theorem dist2_nonneg (a b : Emb) : 0 ≤ dist2 a b := by
  induction a generalizing b with
  | nil => cases b <;> simp [dist2]
  | cons x xs ih =>
    cases b with
    | nil => simp [dist2]
    | cons y ys => exact add_nonneg (sq_nonneg (x - y)) (ih ys)

theorem dist2_self (a : Emb) : dist2 a a = 0 := by
  induction a with
  | nil => rfl
  | cons x xs ih => simp [dist2, ih]

theorem bestDist2_nonneg (f : RegisteredFace) (e : Emb) : 0 ≤ bestDist2 f e := by
  refine listMin_nonneg _ (fun x hx => ?_)
  rcases List.mem_map.mp hx with ⟨g, _, rfl⟩
  exact dist2_nonneg e g

theorem bestDist2_addEmbedding_self (f : RegisteredFace) (e : Emb) :
    bestDist2 (addEmbedding e f) e = 0 := by
  have hmem : (0 : ℚ) ∈ (addEmbedding e f).embeddings.map (dist2 e) := by
    refine List.mem_map.mpr ⟨e, ?_, dist2_self e⟩
    simp [addEmbedding]
  exact le_antisymm (listMin_le_mem _ 0 hmem) (bestDist2_nonneg _ e)

theorem addEmbedding_user_id (e : Emb) (f : RegisteredFace) :
    (addEmbedding e f).user_id = f.user_id := rfl

theorem addEmbedding_length (e : Emb) (f : RegisteredFace)
    (h : f.embeddings.length ≤ MAX_EMBEDDINGS_PER_USER) :
    (addEmbedding e f).embeddings.length ≤ MAX_EMBEDDINGS_PER_USER := by
  unfold addEmbedding MAX_EMBEDDINGS_PER_USER at *
  split
  · simp only [List.length_append, List.length_tail, List.length_cons,
      List.length_nil]
    omega
  · simp only [List.length_append, List.length_cons, List.length_nil]
    omega

theorem scanBest_eq_some (e : Emb) (fs : List RegisteredFace) :
    ∀ (f : RegisteredFace) (i : Nat) (d : ℚ),
      scanBest e fs = some (f, i, d) →
      fs[i]? = some f ∧ d = bestDist2 f e ∧
        ∀ j g, j < i → fs[j]? = some g → d < bestDist2 g e := by
  induction fs with
  | nil => intro f i d h; simp [scanBest] at h
  | cons f0 rest ih =>
    intro f i d h
    simp only [scanBest] at h
    rcases hrest : scanBest e rest with _ | ⟨bf, j, bd⟩
    · rw [hrest] at h
      dsimp only at h
      simp only [Option.some.injEq, Prod.mk.injEq] at h
      obtain ⟨hf, hi, hd⟩ := h
      subst hf; subst hi; subst hd
      exact ⟨by simp, rfl, fun j g hj _ => absurd hj (Nat.not_lt_zero j)⟩
    · rw [hrest] at h
      dsimp only at h
      by_cases hlt : bd < bestDist2 f0 e
      · rw [if_pos hlt] at h
        simp only [Option.some.injEq, Prod.mk.injEq] at h
        obtain ⟨hf, hi, hd⟩ := h
        subst hf; subst hd
        obtain ⟨h1, h2, h3⟩ := ih bf j bd hrest
        subst hi
        refine ⟨by simpa using h1, h2, ?_⟩
        intro j' g hj' hg
        cases j' with
        | zero =>
          simp only [List.getElem?_cons_zero, Option.some.injEq] at hg
          subst hg
          exact hlt
        | succ k =>
          simp only [List.getElem?_cons_succ] at hg
          exact h3 k g (Nat.lt_of_succ_lt_succ hj') hg
      · rw [if_neg hlt] at h
        simp only [Option.some.injEq, Prod.mk.injEq] at h
        obtain ⟨hf, hi, hd⟩ := h
        subst hf; subst hi; subst hd
        exact ⟨by simp, rfl, fun j g hj _ => absurd hj (Nat.not_lt_zero j)⟩

theorem scanBest_mem (e : Emb) (fs : List RegisteredFace)
    (f : RegisteredFace) (i : Nat) (d : ℚ)
    (h : scanBest e fs = some (f, i, d)) : f ∈ fs := by
  obtain ⟨h1, _, _⟩ := scanBest_eq_some e fs f i d h
  rw [List.getElem?_eq_some] at h1
  obtain ⟨hlt, hEq⟩ := h1
  exact hEq ▸ List.getElem_mem hlt

theorem scanBest_nonneg (e : Emb) (fs : List RegisteredFace)
    (f : RegisteredFace) (i : Nat) (d : ℚ)
    (h : scanBest e fs = some (f, i, d)) : 0 ≤ d := by
  obtain ⟨_, h2, _⟩ := scanBest_eq_some e fs f i d h
  exact h2 ▸ bestDist2_nonneg f e

theorem scanBest_of_zero (e : Emb) (fs : List RegisteredFace) :
    ∀ (i : Nat) (f : RegisteredFace),
      fs[i]? = some f → bestDist2 f e = 0 →
      (∀ j g, j < i → fs[j]? = some g → 0 < bestDist2 g e) →
      scanBest e fs = some (f, i, 0) := by
  induction fs with
  | nil => intro i f hi; simp at hi
  | cons f0 rest ih =>
    intro i f hi hf hlt
    cases i with
    | zero =>
      simp only [List.getElem?_cons_zero, Option.some.injEq] at hi
      subst hi
      simp only [scanBest]
      rcases hrest : scanBest e rest with _ | ⟨bf, j, bd⟩
      · dsimp only
        simp [hf]
      · dsimp only
        have hbd : 0 ≤ bd := scanBest_nonneg e rest bf j bd hrest
        rw [if_neg (by rw [hf]; exact not_lt.mpr hbd)]
        simp [hf]
    | succ k =>
      simp only [List.getElem?_cons_succ] at hi
      have h0 : 0 < bestDist2 f0 e :=
        hlt 0 f0 (Nat.succ_pos k) (List.getElem?_cons_zero)
      have hrest : scanBest e rest = some (f, k, 0) := by
        refine ih k f hi hf (fun j g hj hg => ?_)
        exact hlt (j + 1) g (Nat.succ_lt_succ hj) (by simpa using hg)
      simp only [scanBest, hrest]
      rw [if_pos h0]

theorem identify_of_scan_miss (st : RegState) (e : Emb)
    (f : RegisteredFace) (i : Nat) (d : ℚ)
    (hscan : scanBest e st.faces = some (f, i, d))
    (hd : ¬ d < MATCH_THRESHOLD_SQ) :
    identify (some e) st = identifyMiss e st := by
  simp only [identify, hscan]
  rw [if_neg hd]

theorem identify_of_scan_hit (st : RegState) (e : Emb)
    (f : RegisteredFace) (i : Nat) (d : ℚ)
    (hscan : scanBest e st.faces = some (f, i, d))
    (hd : d < MATCH_THRESHOLD_SQ) :
    identify (some e) st =
      match save { st with
          last_identified_user := some f.user_id,
          consecutive_misses := 0,
          last_miss_embedding := none,
          faces := st.faces.set i (addEmbedding e f) } with
      | .error st2 => .error st2
      | .ok st2 => .ok (f.user_id, st2) := by
  simp only [identify, hscan]
  rw [if_pos hd]

/-! ## Claim C1 -/

/-- Claim C1 as stated is false: from an empty registry, the first
`identify(e1)` already goes through the miss path (the miss counter
ends the call at 1, not 0, because `_create_new_user` does not reset
it), so the third `identify(e2)` is miss 3/3 and mints the fresh id —
here `"user_1"`, different from the id `"user_0"` returned on call 1,
whereas the claim requires `u1` again on call 3 and the fresh id only
on call 4. -/
theorem C1_counterexample :
    (runCalls [some [(0 : ℚ)], some [1], some [1], some [1]] initState).1
      = ["user_0", "user_0", "user_1", "user_1"]
    ∧ ("user_1" : String) ≠ "user_0" := by
  have hd : ¬ dist2 [(1 : ℚ)] [0] < MATCH_THRESHOLD_SQ := by
    norm_num [dist2, MATCH_THRESHOLD_SQ]
  have hpos : (0 : ℚ) < dist2 [(1 : ℚ)] [0] := by
    norm_num [dist2]
  have h1 : identify (some [(0 : ℚ)]) initState =
      .ok ("user_0", (⟨[⟨"user_0", [[0]]⟩], some "user_0", 1, none, 1, true,
        some [("user_0", [[0]])]⟩ : RegState)) := rfl
  have hscanA : scanBest [(1 : ℚ)] [⟨"user_0", [[0]]⟩] =
      some (⟨"user_0", [[0]]⟩, 0, dist2 [(1 : ℚ)] [0]) := rfl
  have h2 : identify (some [(1 : ℚ)])
      (⟨[⟨"user_0", [[0]]⟩], some "user_0", 1, none, 1, true,
        some [("user_0", [[0]])]⟩ : RegState) =
      .ok ("user_0", ⟨[⟨"user_0", [[0]]⟩], some "user_0", 2, some [1], 1, true,
        some [("user_0", [[0]])]⟩) := by
    rw [identify_of_scan_miss _ [1] ⟨"user_0", [[0]]⟩ 0 (dist2 [1] [0]) hscanA hd]
    rfl
  have h3 : identify (some [(1 : ℚ)])
      (⟨[⟨"user_0", [[0]]⟩], some "user_0", 2, some [1], 1, true,
        some [("user_0", [[0]])]⟩ : RegState) =
      .ok ("user_1", ⟨[⟨"user_0", [[0]]⟩, ⟨"user_1", [[1]]⟩], some "user_1", 0,
        none, 2, true, some [("user_0", [[0]]), ("user_1", [[1]])]⟩) := by
    rw [identify_of_scan_miss _ [1] ⟨"user_0", [[0]]⟩ 0 (dist2 [1] [0]) hscanA hd]
    rfl
  have hb1 : bestDist2 ⟨"user_1", [[1]]⟩ [(1 : ℚ)] = 0 := by
    simp [bestDist2, listMin, dist2_self]
  have hscanB : scanBest [(1 : ℚ)] [⟨"user_0", [[0]]⟩, ⟨"user_1", [[1]]⟩] =
      some (⟨"user_1", [[1]]⟩, 1, 0) := by
    refine scanBest_of_zero _ _ 1 ⟨"user_1", [[1]]⟩ (by simp) hb1 ?_
    intro j g hj hg
    cases j with
    | zero =>
      simp only [List.getElem?_cons_zero, Option.some.injEq] at hg
      subst hg
      simpa [bestDist2, listMin] using hpos
    | succ k => exact absurd hj (by omega)
  have h4 : identify (some [(1 : ℚ)])
      (⟨[⟨"user_0", [[0]]⟩, ⟨"user_1", [[1]]⟩], some "user_1", 0,
        none, 2, true, some [("user_0", [[0]]), ("user_1", [[1]])]⟩ : RegState) =
      .ok ("user_1", ⟨[⟨"user_0", [[0]]⟩, ⟨"user_1", [[1], [1]]⟩], some "user_1",
        0, none, 2, true, some [("user_0", [[0]]), ("user_1", [[1], [1]])]⟩) := by
    rw [identify_of_scan_hit _ [1] ⟨"user_1", [[1]]⟩ 1 0 hscanB
      (by norm_num [MATCH_THRESHOLD_SQ])]
    rfl
  refine ⟨?_, by simp⟩
  simp only [runCalls, h1, h2, h3, h4]

/-- Claim C1 (amended): starting from an empty registry with no
`last_identified_user`, the sequence `identify(e1)`, then `identify(e2)`
three times (`e2` farther than `MATCH_THRESHOLD` from every embedding
stored for the first user) returns a fresh `u1 = "user_0"` on call 1
(immediate mint through the miss path, which already counts miss 1/3),
`u1` again on call 2 only (sticky fallback, miss 2/3), a fresh
`u2 = "user_1"` distinct from `u1` on call 3 (miss 3/3), and `u2` again
on call 4 (now a confirmed match on `u2`'s stored embedding). -/
theorem C1_theorem (e1 e2 : Emb) (hd : ¬ dist2 e2 e1 < MATCH_THRESHOLD_SQ) :
    (runCalls [some e1, some e2, some e2, some e2] initState).1
      = ["user_0", "user_0", "user_1", "user_1"]
    ∧ ("user_1" : String) ≠ "user_0" := by
  have hpos : (0 : ℚ) < dist2 e2 e1 :=
    lt_of_lt_of_le (by norm_num [MATCH_THRESHOLD_SQ]) (not_lt.mp hd)
  have h1 : identify (some e1) initState =
      .ok ("user_0", (⟨[⟨"user_0", [e1]⟩], some "user_0", 1, none, 1, true,
        some [("user_0", [e1])]⟩ : RegState)) := by
    simp only [identify, identifyMiss, createNewUser, save, serializeFaces,
      initState, scanBest]
    rfl
  have hscanA : scanBest e2 [⟨"user_0", [e1]⟩] =
      some (⟨"user_0", [e1]⟩, 0, dist2 e2 e1) := rfl
  have h2 : identify (some e2)
      (⟨[⟨"user_0", [e1]⟩], some "user_0", 1, none, 1, true,
        some [("user_0", [e1])]⟩ : RegState) =
      .ok ("user_0", ⟨[⟨"user_0", [e1]⟩], some "user_0", 2, some e2, 1, true,
        some [("user_0", [e1])]⟩) := by
    rw [identify_of_scan_miss _ e2 ⟨"user_0", [e1]⟩ 0 (dist2 e2 e1) hscanA hd]
    simp only [identifyMiss, createNewUser, save, serializeFaces]
    rfl
  have h3 : identify (some e2)
      (⟨[⟨"user_0", [e1]⟩], some "user_0", 2, some e2, 1, true,
        some [("user_0", [e1])]⟩ : RegState) =
      .ok ("user_1", ⟨[⟨"user_0", [e1]⟩, ⟨"user_1", [e2]⟩], some "user_1", 0,
        none, 2, true, some [("user_0", [e1]), ("user_1", [e2])]⟩) := by
    rw [identify_of_scan_miss _ e2 ⟨"user_0", [e1]⟩ 0 (dist2 e2 e1) hscanA hd]
    simp only [identifyMiss, createNewUser, save, serializeFaces]
    rfl
  have hb1 : bestDist2 ⟨"user_1", [e2]⟩ e2 = 0 := by
    simp [bestDist2, listMin, dist2_self]
  have hscanB : scanBest e2 [⟨"user_0", [e1]⟩, ⟨"user_1", [e2]⟩] =
      some (⟨"user_1", [e2]⟩, 1, 0) := by
    refine scanBest_of_zero e2 _ 1 ⟨"user_1", [e2]⟩ (by simp) hb1 ?_
    intro j g hj hg
    cases j with
    | zero =>
      simp only [List.getElem?_cons_zero, Option.some.injEq] at hg
      subst hg
      simpa [bestDist2, listMin] using hpos
    | succ k => exact absurd hj (by omega)
  have h4 : identify (some e2)
      (⟨[⟨"user_0", [e1]⟩, ⟨"user_1", [e2]⟩], some "user_1", 0,
        none, 2, true, some [("user_0", [e1]), ("user_1", [e2])]⟩ : RegState) =
      .ok ("user_1", ⟨[⟨"user_0", [e1]⟩, ⟨"user_1", [e2, e2]⟩], some "user_1", 0,
        none, 2, true, some [("user_0", [e1]), ("user_1", [e2, e2])]⟩) := by
    rw [identify_of_scan_hit _ e2 ⟨"user_1", [e2]⟩ 1 0 hscanB
      (by norm_num [MATCH_THRESHOLD_SQ])]
    simp only [save, serializeFaces, addEmbedding, MAX_EMBEDDINGS_PER_USER]
    rfl
  refine ⟨?_, by simp⟩
  simp only [runCalls, h1, h2, h3, h4]

/-- Witness for `C1_theorem` at `e1 = [0]`, `e2 = [1]`. -/
theorem C1_witness :
    (runCalls [some [(0 : ℚ)], some [1], some [1], some [1]] initState).1
      = ["user_0", "user_0", "user_1", "user_1"]
    ∧ ("user_1" : String) ≠ "user_0" :=
  C1_theorem [0] [1] (by norm_num [dist2, MATCH_THRESHOLD_SQ])

/-! ## Claim C3 -/

theorem save_of_write_fail (st : RegState) (hw : st.write_ok = false) :
    save st = .error st := by
  simp [save, hw]

/-- Claim C3 as stated is false: with a disk that rejects writes, an
`identify` call that confirms a match raises out of the call (the
`save()` on line 114 of `face_registry.py` is not wrapped in any
try/except), instead of completing and returning the matched user. -/
theorem C3_counterexample :
    identify (some [(0 : ℚ)]) c3_state =
      .error (⟨[⟨"kaya", [[0], [0]]⟩], some "kaya", 0, none, 0, false,
        none⟩ : RegState) := by
  rw [identify_of_scan_hit c3_state [0] ⟨"kaya", [[0]]⟩ 0 (dist2 [0] [0]) rfl
    (by norm_num [dist2, MATCH_THRESHOLD_SQ])]
  rfl

/-- Claim C3 (amended): if a storage write fails during a mutating
registry operation, the exception propagates out of the operation with
the in-memory mutation already applied — `identify` raises on a
confirmed match (the matched face updated, the last-user fields set),
`identify` raises on new-user creation through the miss path (both the
mint after `NEW_USER_CONSECUTIVE_MISSES` misses and the immediate
first-sighting mint, in each case with the new face appended but the
last-user pointer not yet set), `register_user` raises in both of its
branches (embedding appended to the existing user, or the new face
appended), and `delete_user` of a present id raises with the face
removed.  Only `load`-side read failures are caught in the source. -/
theorem C3_theorem (st : RegState) (hw : st.write_ok = false) :
    (∀ e f i d, scanBest e st.faces = some (f, i, d) →
      d < MATCH_THRESHOLD_SQ →
      identify (some e) st = .error { st with
        last_identified_user := some f.user_id,
        consecutive_misses := 0,
        last_miss_embedding := none,
        faces := st.faces.set i (addEmbedding e f) })
    ∧ (∀ e f i d, scanBest e st.faces = some (f, i, d) →
        ¬ d < MATCH_THRESHOLD_SQ →
        NEW_USER_CONSECUTIVE_MISSES ≤ st.consecutive_misses + 1 →
        identify (some e) st = .error { st with
          faces := st.faces ++
            [⟨"user_" ++ toString st.next_uid, [e]⟩],
          consecutive_misses := 0,
          last_miss_embedding := some e,
          next_uid := st.next_uid + 1 })
    ∧ (∀ e, scanBest e st.faces = none →
        st.consecutive_misses + 1 < NEW_USER_CONSECUTIVE_MISSES →
        st.last_identified_user = none →
        identify (some e) st = .error { st with
          faces := st.faces ++
            [⟨"user_" ++ toString st.next_uid, [e]⟩],
          consecutive_misses := st.consecutive_misses + 1,
          last_miss_embedding := some e,
          next_uid := st.next_uid + 1 })
    ∧ (∀ uid e fs', updateFirst uid e st.faces = some fs' →
        register_user uid e st = .error { st with faces := fs' })
    ∧ (∀ uid e, updateFirst uid e st.faces = none →
        register_user uid e st =
          .error { st with faces := st.faces ++ [⟨uid, [e]⟩] })
    ∧ (∀ uid fs', removeFirst uid st.faces = some fs' →
        delete_user uid st = .error { st with faces := fs' }) := by
  obtain ⟨faces, lu, cm, lme, nu, wo, sg⟩ := st
  dsimp only at hw ⊢
  subst hw
  refine ⟨?_, ?_, ?_, ?_, ?_, ?_⟩
  · intro e f i d hscan hd
    rw [identify_of_scan_hit _ e f i d hscan hd]
    simp only [save]
    rfl
  · intro e f i d hscan hd h3
    rw [identify_of_scan_miss _ e f i d hscan hd]
    simp only [identifyMiss]
    rw [if_pos h3]
    simp only [createNewUser, save]
    rfl
  · intro e hscan hlt hlu
    subst hlu
    simp only [identify, hscan]
    simp only [identifyMiss]
    rw [if_neg (not_le.mpr hlt)]
    simp only [createNewUser, save]
    rfl
  · intro uid e fs' hup
    simp only [register_user, hup, save]
    rfl
  · intro uid e hup
    simp only [register_user, hup, save]
    rfl
  · intro uid fs' hrem
    simp only [delete_user, hrem, save]
    rfl

/-- Witness for `C3_theorem`: on a failing disk, a confirmed match and
a third-miss new-user mint both raise with the mutation applied. -/
theorem C3_witness :
    (identify (some [(0 : ℚ)]) c3_state =
      .error { c3_state with
        last_identified_user := some "kaya",
        consecutive_misses := 0,
        last_miss_embedding := none,
        faces := c3_state.faces.set 0 (addEmbedding [0] ⟨"kaya", [[0]]⟩) })
    ∧ (identify (some [(9 : ℚ)])
        (⟨[⟨"kaya", [[0]]⟩], some "kaya", 2, none, 0, false,
          none⟩ : RegState) =
      .error (⟨[⟨"kaya", [[0]]⟩, ⟨"user_0", [[9]]⟩], some "kaya", 0,
        some [9], 1, false, none⟩ : RegState)) :=
  ⟨(C3_theorem c3_state rfl).1 [0] ⟨"kaya", [[0]]⟩ 0 (dist2 [0] [0]) rfl
      (by norm_num [dist2, MATCH_THRESHOLD_SQ]),
    (C3_theorem (⟨[⟨"kaya", [[0]]⟩], some "kaya", 2, none, 0, false,
          none⟩ : RegState)
        rfl).2.1 [9] ⟨"kaya", [[0]]⟩ 0 (dist2 [9] [0]) rfl
      (by norm_num [dist2, MATCH_THRESHOLD_SQ]) (by decide)⟩

/-! ## Claim C4 -/

theorem removeFirst_eq_none (uid : String) (fs : List RegisteredFace) :
    removeFirst uid fs = none ↔ ∀ f ∈ fs, f.user_id ≠ uid := by
  induction fs with
  | nil => simp [removeFirst]
  | cons f rest ih =>
    by_cases hf : f.user_id = uid
    · simp [removeFirst, hf]
    · simp [removeFirst, hf, ih]

theorem removeFirst_eq_some (uid : String) (fs : List RegisteredFace) :
    ∀ fs', removeFirst uid fs = some fs' →
      ∃ pre x post, fs = pre ++ x :: post ∧ x.user_id = uid ∧
        (∀ y ∈ pre, y.user_id ≠ uid) ∧ fs' = pre ++ post := by
  induction fs with
  | nil => intro fs' h; simp [removeFirst] at h
  | cons f rest ih =>
    intro fs' h
    by_cases hf : f.user_id = uid
    · simp only [removeFirst, if_pos hf, Option.some.injEq] at h
      exact ⟨[], f, rest, by simp, hf, by simp, h.symm⟩
    · simp only [removeFirst, if_neg hf] at h
      obtain ⟨fs0, hrem, hcons⟩ := Option.map_eq_some'.mp h
      obtain ⟨pre, x, post, h1, h2, h3, h4⟩ := ih fs0 hrem
      refine ⟨f :: pre, x, post, by simp [h1], h2, ?_, by simp [← hcons, h4]⟩
      intro y hy
      rcases List.mem_cons.mp hy with hy | hy
      · exact hy ▸ hf
      · exact h3 y hy

/-- Claim C4 as stated is false: after `register_user "kaya"`, a
confirmed `identify` (which makes `"kaya"` the sticky last identified
user) and a successful `delete_user "kaya"` (returning `True`), the
very next `identify` with the formerly stored embedding still returns
`"kaya"` — `delete_user` never clears `_last_identified_user`, so the
sticky fallback of the miss path resurrects the deleted id. -/
theorem C4_counterexample : c4_run = Except.ok (true, "kaya") := by
  have hA : register_user "kaya" [(0 : ℚ)] initState =
      .ok (true, (⟨[⟨"kaya", [[0]]⟩], none, 0, none, 0, true,
        some [("kaya", [[0]])]⟩ : RegState)) := rfl
  have hB : identify (some [(0 : ℚ)])
      (⟨[⟨"kaya", [[0]]⟩], none, 0, none, 0, true,
        some [("kaya", [[0]])]⟩ : RegState) =
      .ok ("kaya", ⟨[⟨"kaya", [[0], [0]]⟩], some "kaya", 0, none, 0, true,
        some [("kaya", [[0], [0]])]⟩) := by
    rw [identify_of_scan_hit
      (⟨[⟨"kaya", [[0]]⟩], none, 0, none, 0, true,
        some [("kaya", [[0]])]⟩ : RegState)
      [0] ⟨"kaya", [[0]]⟩ 0 (dist2 [0] [0]) rfl
      (by norm_num [dist2, MATCH_THRESHOLD_SQ])]
    rfl
  have hC : delete_user "kaya"
      (⟨[⟨"kaya", [[0], [0]]⟩], some "kaya", 0, none, 0, true,
        some [("kaya", [[0], [0]])]⟩ : RegState) =
      .ok (true, ⟨[], some "kaya", 0, none, 0, true, some []⟩) := rfl
  have hD : identify (some [(0 : ℚ)])
      (⟨[], some "kaya", 0, none, 0, true, some []⟩ : RegState) =
      .ok ("kaya", ⟨[], some "kaya", 1, some [0], 0, true, some []⟩) := rfl
  simp only [c4_run, hA, hB, hC, hD]

/-- Claim C4 (amended): `delete_user` on an absent id returns `False`
and leaves the registry — face set and transient matching state —
unchanged; on a present id it returns `True` and removes that Identity,
so no stored face carries the id any more and no later `identify` can
produce a confirmed match for it; but the transient
`last_identified_user` is not cleared by the deletion, so a later
`identify` may still return the deleted id through the sticky
fallback. -/
theorem C4_theorem (st : RegState) (uid : String)
    (hw : st.write_ok = true)
    (huniq : st.faces.countP (fun f => f.user_id = uid) ≤ 1) :
    (uid ∉ list_users st → delete_user uid st = .ok (false, st))
    ∧ (uid ∈ list_users st →
        ∃ st', delete_user uid st = .ok (true, st')
          ∧ uid ∉ list_users st'
          ∧ st'.last_identified_user = st.last_identified_user
          ∧ ∀ e f i d, scanBest e st'.faces = some (f, i, d) →
              f.user_id ≠ uid) := by
  constructor
  · intro hmem
    have hnone : removeFirst uid st.faces = none := by
      refine (removeFirst_eq_none uid st.faces).mpr (fun f hf heq => ?_)
      exact hmem (List.mem_map.mpr ⟨f, hf, heq⟩)
    simp only [delete_user, hnone]
  · intro hmem
    rcases hrem : removeFirst uid st.faces with _ | fs'
    · exfalso
      obtain ⟨f, hf, heq⟩ := List.mem_map.mp hmem
      exact (removeFirst_eq_none uid st.faces).mp hrem f hf heq
    · obtain ⟨pre, x, post, hfs, hx, hpre, hfs'⟩ :=
        removeFirst_eq_some uid st.faces fs' hrem
      have hcount := huniq
      rw [hfs, List.countP_append,
        List.countP_cons_of_pos _ _ (by simp [hx])] at hcount
      have hpost0 : post.countP (fun f => f.user_id = uid) = 0 := by omega
      have hpost : ∀ y ∈ post, y.user_id ≠ uid := by
        intro y hy
        have := List.countP_eq_zero.mp hpost0 y hy
        simpa using this
      have hmem' : ∀ g ∈ fs', g.user_id ≠ uid := by
        subst hfs'
        intro g hg
        rcases List.mem_append.mp hg with h | h
        · exact hpre g h
        · exact hpost g h
      refine ⟨({ st with faces := fs', storage := some (serializeFaces fs') } : RegState), ?_, ?_, rfl, ?_⟩
      · simp only [delete_user, hrem, save, hw]
        rfl
      · intro hcontra
        obtain ⟨g, hg, hgeq⟩ := List.mem_map.mp hcontra
        exact hmem' g (by simpa using hg) (by simpa using hgeq)
      · intro e f i d hscan
        exact hmem' f (scanBest_mem e fs' f i d (by simpa using hscan))

/-- Witness for `C4_theorem` at a one-face registry holding `"kaya"`. -/
theorem C4_witness :
    (("kaya" : String) ∉ list_users
        (⟨[⟨"kaya", [[0]]⟩], some "kaya", 0, none, 0, true, none⟩ : RegState) →
      delete_user "kaya"
        (⟨[⟨"kaya", [[0]]⟩], some "kaya", 0, none, 0, true, none⟩ : RegState) =
        .ok (false, ⟨[⟨"kaya", [[0]]⟩], some "kaya", 0, none, 0, true, none⟩))
    ∧ (("kaya" : String) ∈ list_users
        (⟨[⟨"kaya", [[0]]⟩], some "kaya", 0, none, 0, true, none⟩ : RegState) →
        ∃ st', delete_user "kaya"
            (⟨[⟨"kaya", [[0]]⟩], some "kaya", 0, none, 0, true,
              none⟩ : RegState) = .ok (true, st')
          ∧ ("kaya" : String) ∉ list_users st'
          ∧ st'.last_identified_user = some "kaya"
          ∧ ∀ e f i d, scanBest e st'.faces = some (f, i, d) →
              f.user_id ≠ "kaya") :=
  C4_theorem ⟨[⟨"kaya", [[0]]⟩], some "kaya", 0, none, 0, true, none⟩
    "kaya" rfl (by decide)

/-! ## Claim C10 -/

/-- Claim C10 as stated is false on one point: besides setting
`_last_identified_user`, the anonymous-mint path of `_create_new_user`
also assigns `_last_miss_embedding = None` (line 143), an observable
change whenever a miss embedding was pending — here the pending `[0]`
is cleared by `identify(None)`. -/
theorem C10_counterexample :
    identify none (⟨[], none, 0, some [(0 : ℚ)], 0, true, none⟩ : RegState) =
      .ok ("user_0", ⟨[], some "user_0", 0, none, 1, true, none⟩)
    ∧ (⟨[], none, 0, some [(0 : ℚ)], 0, true, none⟩ : RegState).last_miss_embedding
      ≠ (⟨[], some "user_0", 0, none, 1, true,
          none⟩ : RegState).last_miss_embedding := by
  exact ⟨rfl, by simp⟩

/-- Claim C10 (amended): `identify(None)` in a state with no
`last_identified_user` mints a fresh anonymous id without adding any
Identity and without saving: the face set, the persisted document and
hence `list_users()` are unchanged — the result state is the input
state with `last_identified_user` set to the fresh id, the transient
last-miss embedding cleared (a no-op whenever no miss is pending), and
the fresh-id supply advanced — and, the anonymous id being attached to
no face, no scan over the face set can ever return it as a match. -/
theorem C10_theorem (st : RegState)
    (h1 : st.last_identified_user = none)
    (hfresh : ("user_" ++ toString st.next_uid) ∉ list_users st) :
    identify none st =
      .ok ("user_" ++ toString st.next_uid,
        { st with
          last_identified_user := some ("user_" ++ toString st.next_uid),
          last_miss_embedding := none,
          next_uid := st.next_uid + 1 })
    ∧ list_users { st with
        last_identified_user := some ("user_" ++ toString st.next_uid),
        last_miss_embedding := none,
        next_uid := st.next_uid + 1 } = list_users st
    ∧ ∀ e f i d,
        scanBest e ({ st with
          last_identified_user := some ("user_" ++ toString st.next_uid),
          last_miss_embedding := none,
          next_uid := st.next_uid + 1 } : RegState).faces = some (f, i, d) →
        f.user_id ≠ "user_" ++ toString st.next_uid := by
  obtain ⟨faces, lu, cm, lme, nu, wo, sg⟩ := st
  dsimp only at h1 hfresh ⊢
  subst h1
  refine ⟨?_, rfl, ?_⟩
  · simp only [identify, createNewUser]
  · intro e f i d hscan heq
    exact hfresh
      (List.mem_map.mpr ⟨f, scanBest_mem e faces f i d hscan, heq⟩)

/-- Witness for `C10_theorem` at the empty initial registry. -/
theorem C10_witness :
    identify none initState =
      .ok ("user_" ++ toString initState.next_uid,
        { initState with
          last_identified_user :=
            some ("user_" ++ toString initState.next_uid),
          last_miss_embedding := none,
          next_uid := initState.next_uid + 1 })
    ∧ list_users { initState with
        last_identified_user := some ("user_" ++ toString initState.next_uid),
        last_miss_embedding := none,
        next_uid := initState.next_uid + 1 } = list_users initState
    ∧ ∀ e f i d,
        scanBest e ({ initState with
          last_identified_user :=
            some ("user_" ++ toString initState.next_uid),
          last_miss_embedding := none,
          next_uid := initState.next_uid + 1 } : RegState).faces =
            some (f, i, d) →
        f.user_id ≠ "user_" ++ toString initState.next_uid :=
  C10_theorem initState rfl (by simp [list_users, initState])

/-! ## Claim C7 -/

/-- Claim C7: `identify` is idempotent under repetition of a matching
embedding — for any registry state, if `identify(e)` is a confirmed
match (the scan finds a best face at distance below `MATCH_THRESHOLD`)
returning user `u`, then an immediately following `identify(e)` is also
a confirmed match (the scan now finds distance 0 on the face that just
absorbed `e`, which lies below the threshold) and returns the same
`u`. -/
theorem C7_theorem (st : RegState) (e : Emb) (f : RegisteredFace)
    (i : Nat) (d : ℚ) (u : String) (st1 : RegState)
    (hscan : scanBest e st.faces = some (f, i, d))
    (hd : d < MATCH_THRESHOLD_SQ)
    (h1 : identify (some e) st = .ok (u, st1)) :
    ∃ st2, scanBest e st1.faces = some (addEmbedding e f, i, 0)
      ∧ (0 : ℚ) < MATCH_THRESHOLD_SQ
      ∧ (addEmbedding e f).user_id = u
      ∧ identify (some e) st1 = .ok (u, st2) := by
  obtain ⟨faces, lu, cm, lme, nu, wo, sg⟩ := st
  dsimp only at hscan
  rw [identify_of_scan_hit _ e f i d hscan hd] at h1
  obtain ⟨hgetf, hdval, hstrict⟩ := scanBest_eq_some e faces f i d hscan
  have hi : i < faces.length := by
    rw [List.getElem?_eq_some] at hgetf
    exact hgetf.1
  have hd0 : (0 : ℚ) ≤ d := hdval ▸ bestDist2_nonneg f e
  cases wo with
  | false =>
    rw [save_of_write_fail _ rfl] at h1
    cases h1
  | true =>
    have hsave : save (⟨faces.set i (addEmbedding e f), some f.user_id, 0,
        none, nu, true, sg⟩ : RegState) =
        .ok ⟨faces.set i (addEmbedding e f), some f.user_id, 0,
          none, nu, true,
          some (serializeFaces (faces.set i (addEmbedding e f)))⟩ := rfl
    rw [hsave] at h1
    dsimp only at h1
    rw [Except.ok.injEq, Prod.mk.injEq] at h1
    obtain ⟨hu, hst1⟩ := h1
    subst hu
    subst hst1
    have hscan2 : scanBest e (faces.set i (addEmbedding e f)) =
        some (addEmbedding e f, i, 0) := by
      refine scanBest_of_zero e _ i (addEmbedding e f)
        (List.getElem?_set_eq_of_lt _ hi) (bestDist2_addEmbedding_self f e) ?_
      intro j g hj hg
      rw [List.getElem?_set_ne (Nat.ne_of_gt hj)] at hg
      exact lt_of_le_of_lt hd0 (hstrict j g hj hg)
    refine ⟨⟨((faces.set i (addEmbedding e f)).set i
        (addEmbedding e (addEmbedding e f))), some f.user_id, 0, none, nu,
        true, some (serializeFaces ((faces.set i (addEmbedding e f)).set i
          (addEmbedding e (addEmbedding e f))))⟩,
      hscan2, by norm_num [MATCH_THRESHOLD_SQ], rfl, ?_⟩
    rw [identify_of_scan_hit _ e (addEmbedding e f) i 0 hscan2
      (by norm_num [MATCH_THRESHOLD_SQ])]
    simp only [save]
    rfl

/-- Witness for `C7_theorem` at a one-face registry and its stored
embedding. -/
theorem C7_witness :
    ∃ st2, scanBest [(0 : ℚ)]
        (⟨[⟨"kaya", [[0], [0]]⟩], some "kaya", 0, none, 0, true,
          some [("kaya", [[0], [0]])]⟩ : RegState).faces =
          some (addEmbedding [0] ⟨"kaya", [[0]]⟩, 0, 0)
      ∧ (0 : ℚ) < MATCH_THRESHOLD_SQ
      ∧ (addEmbedding [0] ⟨"kaya", [[0]]⟩).user_id = "kaya"
      ∧ identify (some [(0 : ℚ)])
          (⟨[⟨"kaya", [[0], [0]]⟩], some "kaya", 0, none, 0, true,
            some [("kaya", [[0], [0]])]⟩ : RegState) = .ok ("kaya", st2) :=
  C7_theorem ⟨[⟨"kaya", [[0]]⟩], none, 0, none, 0, true, none⟩ [0]
    ⟨"kaya", [[0]]⟩ 0 (dist2 [0] [0]) "kaya"
    ⟨[⟨"kaya", [[0], [0]]⟩], some "kaya", 0, none, 0, true,
      some [("kaya", [[0], [0]])]⟩
    rfl (by norm_num [dist2, MATCH_THRESHOLD_SQ])
    (by
      rw [identify_of_scan_hit
        (⟨[⟨"kaya", [[0]]⟩], none, 0, none, 0, true, none⟩ : RegState)
        [0] ⟨"kaya", [[0]]⟩ 0 (dist2 [0] [0]) rfl
        (by norm_num [dist2, MATCH_THRESHOLD_SQ])]
      rfl)

/-! ## Claim C6 -/

theorem updateFirst_mem (uid : String) (e : Emb) (fs : List RegisteredFace) :
    ∀ fs', updateFirst uid e fs = some fs' →
      ∀ g ∈ fs', g ∈ fs ∨ ∃ f, f ∈ fs ∧ g = addEmbedding e f := by
  induction fs with
  | nil => intro fs' h; simp [updateFirst] at h
  | cons f rest ih =>
    intro fs' h g hg
    by_cases hf : f.user_id = uid
    · simp only [updateFirst, if_pos hf, Option.some.injEq] at h
      subst h
      rcases List.mem_cons.mp hg with hg | hg
      · exact Or.inr ⟨f, List.mem_cons_self f rest, hg⟩
      · exact Or.inl (List.mem_cons_of_mem f hg)
    · simp only [updateFirst, if_neg hf] at h
      obtain ⟨fs0, hup, hcons⟩ := Option.map_eq_some'.mp h
      subst hcons
      rcases List.mem_cons.mp hg with hg | hg
      · exact Or.inl (hg ▸ List.mem_cons_self f rest)
      · rcases ih fs0 hup g hg with hmem | ⟨f0, hf0, hgf0⟩
        · exact Or.inl (List.mem_cons_of_mem f hmem)
        · exact Or.inr ⟨f0, List.mem_cons_of_mem f hf0, hgf0⟩

theorem removeFirst_subset (uid : String) (fs fs' : List RegisteredFace)
    (h : removeFirst uid fs = some fs') : ∀ g ∈ fs', g ∈ fs := by
  obtain ⟨pre, x, post, hfs, _, _, hfs'⟩ := removeFirst_eq_some uid fs fs' h
  subst hfs
  subst hfs'
  intro g hg
  rcases List.mem_append.mp hg with hg | hg
  · exact List.mem_append.mpr (Or.inl hg)
  · exact List.mem_append.mpr (Or.inr (List.mem_cons_of_mem x hg))

theorem createNewUser_resFaces (embO : Option Emb) (st : RegState) :
    resFaces (createNewUser embO st) = st.faces
    ∨ ∃ uid e, resFaces (createNewUser embO st) =
        st.faces ++ [(⟨uid, [e]⟩ : RegisteredFace)] := by
  cases embO with
  | none => exact Or.inl rfl
  | some e =>
    refine Or.inr ⟨"user_" ++ toString st.next_uid, e, ?_⟩
    cases hw : st.write_ok <;>
      simp [createNewUser, save, hw, resFaces]

theorem identifyMiss_resFaces (e : Emb) (st : RegState) :
    resFaces (identifyMiss e st) = st.faces
    ∨ ∃ uid e', resFaces (identifyMiss e st) =
        st.faces ++ [(⟨uid, [e']⟩ : RegisteredFace)] := by
  simp only [identifyMiss]
  by_cases h3 : NEW_USER_CONSECUTIVE_MISSES ≤ st.consecutive_misses + 1
  · rw [if_pos h3]
    rcases createNewUser_resFaces (some e) ({ st with consecutive_misses := 0, last_miss_embedding := some e } : RegState) with h | ⟨uid, e', h⟩
    · exact Or.inl (by simpa using h)
    · exact Or.inr ⟨uid, e', by simpa using h⟩
  · rw [if_neg h3]
    rcases hlu : st.last_identified_user with _ | u
    · dsimp only
      rcases createNewUser_resFaces (some e) ({ st with last_identified_user := none, consecutive_misses := st.consecutive_misses + 1, last_miss_embedding := some e } : RegState) with h | ⟨uid, e', h⟩
      · exact Or.inl (by simpa using h)
      · exact Or.inr ⟨uid, e', by simpa using h⟩
    · dsimp only
      by_cases hu : u = ""
      · rw [if_pos hu]
        rcases createNewUser_resFaces (some e) ({ st with last_identified_user := some u, consecutive_misses := st.consecutive_misses + 1, last_miss_embedding := some e } : RegState) with h | ⟨uid, e', h⟩
        · exact Or.inl (by simpa using h)
        · exact Or.inr ⟨uid, e', by simpa using h⟩
      · rw [if_neg hu]
        exact Or.inl rfl

theorem identify_resFaces (em : Option Emb) (st : RegState) :
    resFaces (identify em st) = st.faces
    ∨ (∃ i e f, f ∈ st.faces ∧
        resFaces (identify em st) = st.faces.set i (addEmbedding e f))
    ∨ (∃ uid e, resFaces (identify em st) =
        st.faces ++ [(⟨uid, [e]⟩ : RegisteredFace)]) := by
  cases em with
  | none =>
    simp only [identify]
    rcases hlu : st.last_identified_user with _ | u
    · dsimp only
      rcases createNewUser_resFaces none st with h | ⟨uid, e, h⟩
      · exact Or.inl h
      · exact Or.inr (Or.inr ⟨uid, e, h⟩)
    · dsimp only
      by_cases hu : u = ""
      · rw [if_pos hu]
        rcases createNewUser_resFaces none st with h | ⟨uid, e, h⟩
        · exact Or.inl h
        · exact Or.inr (Or.inr ⟨uid, e, h⟩)
      · rw [if_neg hu]
        exact Or.inl rfl
  | some e =>
    simp only [identify]
    rcases hscan : scanBest e st.faces with _ | ⟨bf, i, bd⟩
    · dsimp only
      rcases identifyMiss_resFaces e st with h | ⟨uid, e', h⟩
      · exact Or.inl h
      · exact Or.inr (Or.inr ⟨uid, e', h⟩)
    · dsimp only
      by_cases hbd : bd < MATCH_THRESHOLD_SQ
      · rw [if_pos hbd]
        refine Or.inr (Or.inl ⟨i, e, bf, scanBest_mem e st.faces bf i bd hscan, ?_⟩)
        cases hw : st.write_ok <;>
          simp [save, hw, resFaces]
      · rw [if_neg hbd]
        rcases identifyMiss_resFaces e st with h | ⟨uid, e', h⟩
        · exact Or.inl h
        · exact Or.inr (Or.inr ⟨uid, e', h⟩)

theorem capInv_applyOp (st : RegState) (op : RegOp) (h : capInv st) :
    capInv (applyOp st op) := by
  cases op with
  | identifyOp em =>
    have happ : (applyOp st (RegOp.identifyOp em)).faces =
        resFaces (identify em st) := by
      simp only [applyOp, resFaces]
      rcases identify em st with st' | ⟨u, st'⟩ <;> rfl
    intro f hf
    rw [happ] at hf
    rcases identify_resFaces em st with hc | ⟨i, e, g, hg, hc⟩ | ⟨uid, e, hc⟩
    · rw [hc] at hf; exact h f hf
    · rw [hc] at hf
      rcases List.mem_or_eq_of_mem_set hf with hmem | heq
      · exact h f hmem
      · subst heq; exact addEmbedding_length e g (h g hg)
    · rw [hc] at hf
      rcases List.mem_append.mp hf with hmem | hmem
      · exact h f hmem
      · rw [List.mem_singleton] at hmem
        subst hmem
        simp [MAX_EMBEDDINGS_PER_USER]
  | registerOp uid e =>
    have happ : (applyOp st (RegOp.registerOp uid e)).faces =
        resFaces (register_user uid e st) := by
      simp only [applyOp, resFaces]
      rcases register_user uid e st with st' | ⟨u, st'⟩ <;> rfl
    intro f hf
    rw [happ] at hf
    rcases hup : updateFirst uid e st.faces with _ | fs0
    · have hface : resFaces (register_user uid e st) =
          st.faces ++ [(⟨uid, [e]⟩ : RegisteredFace)] := by
        simp only [register_user, hup]
        cases hw : st.write_ok <;> simp [save, hw, resFaces]
      rw [hface] at hf
      rcases List.mem_append.mp hf with hmem | hmem
      · exact h f hmem
      · rw [List.mem_singleton] at hmem
        subst hmem
        simp [MAX_EMBEDDINGS_PER_USER]
    · have hface : resFaces (register_user uid e st) = fs0 := by
        simp only [register_user, hup]
        cases hw : st.write_ok <;> simp [save, hw, resFaces]
      rw [hface] at hf
      rcases updateFirst_mem uid e st.faces fs0 hup f hf with hmem | ⟨g, hg, hfg⟩
      · exact h f hmem
      · subst hfg; exact addEmbedding_length e g (h g hg)
  | deleteOp uid =>
    have happ : (applyOp st (RegOp.deleteOp uid)).faces =
        resFaces (delete_user uid st) := by
      simp only [applyOp, resFaces]
      rcases delete_user uid st with st' | ⟨u, st'⟩ <;> rfl
    intro f hf
    rw [happ] at hf
    rcases hrem : removeFirst uid st.faces with _ | fs'
    · have hface : resFaces (delete_user uid st) = st.faces := by
        simp [delete_user, hrem, resFaces]
      rw [hface] at hf
      exact h f hf
    · have hface : resFaces (delete_user uid st) = fs' := by
        simp only [delete_user, hrem]
        cases hw : st.write_ok <;> simp [save, hw, resFaces]
      rw [hface] at hf
      exact h f (removeFirst_subset uid st.faces fs' hrem f hf)

/-- Claim C6: the per-user embedding cap is an invariant — from any
state satisfying it, any sequence of registry operations (identify
calls, registrations, deletions) leaves every user with at most
`MAX_EMBEDDINGS_PER_USER = 10` stored embeddings; and concretely,
enrolling 11 embeddings for one user from the empty registry leaves
exactly the last 10 in insertion order, the oldest evicted first. -/
theorem C6_theorem :
    (∀ (st : RegState) (ops : List RegOp), capInv st → capInv (runOps st ops))
    ∧ (runOps initState
        [RegOp.registerOp "kaya" [0], RegOp.registerOp "kaya" [1],
         RegOp.registerOp "kaya" [2], RegOp.registerOp "kaya" [3],
         RegOp.registerOp "kaya" [4], RegOp.registerOp "kaya" [5],
         RegOp.registerOp "kaya" [6], RegOp.registerOp "kaya" [7],
         RegOp.registerOp "kaya" [8], RegOp.registerOp "kaya" [9],
         RegOp.registerOp "kaya" [10]]).faces
      = [⟨"kaya", [[1], [2], [3], [4], [5], [6], [7], [8], [9], [10]]⟩] := by
  constructor
  · intro st ops
    induction ops generalizing st with
    | nil => intro h; exact h
    | cons op rest ih =>
      intro h
      exact ih (applyOp st op) (capInv_applyOp st op h)
  · rfl

/-- Witness for the invariant half of `C6_theorem` at the empty
registry and a two-operation sequence. -/
theorem C6_witness :
    capInv (runOps initState
      [RegOp.registerOp "kaya" [0], RegOp.identifyOp none]) :=
  C6_theorem.1 initState [RegOp.registerOp "kaya" [0], RegOp.identifyOp none]
    (by simp [capInv, initState])

/-! ## Audio accumulator run lemmas -/

theorem initBuf_eq : initBuf = mkBuf [] false 0 0 := rfl

theorem runFrames_append (xs ys : List (List ℤ)) (b : AudioBuffer) :
    runFrames (xs ++ ys) b =
      ((runFrames xs b).1 ++ (runFrames ys (runFrames xs b).2).1,
        (runFrames ys (runFrames xs b).2).2) := by
  induction xs generalizing b with
  | nil => simp [runFrames]
  | cons x xs ih =>
    rcases haf : addFrame b x with ⟨o, b'⟩
    simp only [List.cons_append, runFrames, haf]
    rw [show xs.append ys = xs ++ ys from rfl, ih b']

theorem addFrame_speech (f : List ℤ) (F : List (List ℤ)) (k : Nat)
    (hf : isSpeech 500 f = true) :
    addFrame (mkBuf F (decide (5 ≤ k)) 0 k) f =
      (none, mkBuf (if 5 ≤ k + 1 then F ++ [f] else F)
        (decide (5 ≤ k + 1)) 0 (k + 1)) := by
  by_cases h5 : 5 ≤ k + 1
  · simp [addFrame, mkBuf, hf, h5]
  · have hk : ¬ 5 ≤ k := by omega
    simp [addFrame, mkBuf, hf, h5, hk]

theorem runFrames_speech (fs : List (List ℤ)) :
    ∀ (k : Nat) (F : List (List ℤ)),
      (∀ f ∈ fs, isSpeech 500 f = true) →
      runFrames fs (mkBuf F (decide (5 ≤ k)) 0 k) =
        (List.replicate fs.length none,
          mkBuf (F ++ fs.drop (4 - k)) (decide (5 ≤ k + fs.length)) 0
            (k + fs.length)) := by
  induction fs with
  | nil => intro k F _; simp [runFrames, mkBuf]
  | cons f rest ih =>
    intro k F h
    have hf : isSpeech 500 f = true := h f (List.mem_cons_self f rest)
    have hrest : ∀ g ∈ rest, isSpeech 500 g = true :=
      fun g hg => h g (List.mem_cons_of_mem f hg)
    simp only [runFrames, addFrame_speech f F k hf, ih (k + 1) _ hrest]
    rw [List.length_cons]
    have hcnt : k + 1 + rest.length = k + (rest.length + 1) := by omega
    rw [hcnt]
    by_cases h5 : 5 ≤ k + 1
    · have h40 : 4 - k = 0 := by omega
      have h41 : 4 - (k + 1) = 0 := by omega
      rw [if_pos h5, h40, h41]
      simp [List.append_assoc, List.replicate_succ]
    · have h4 : 4 - k = (4 - (k + 1)) + 1 := by omega
      rw [if_neg h5, h4, List.drop_succ_cons]
      simp [List.replicate_succ]

theorem addFrame_silent_idle (g : List ℤ) (j s : Nat)
    (hg : isSpeech 500 g = false) :
    addFrame (mkBuf [] false j s) g = (none, mkBuf [] false (j + 1) s) := by
  simp [addFrame, mkBuf, hg]

theorem runFrames_silent_idle (gs : List (List ℤ)) :
    ∀ (j s : Nat),
      (∀ g ∈ gs, isSpeech 500 g = false) →
      runFrames gs (mkBuf [] false j s) =
        (List.replicate gs.length none, mkBuf [] false (j + gs.length) s) := by
  induction gs with
  | nil => intro j s _; simp [runFrames]
  | cons g rest ih =>
    intro j s h
    have hg : isSpeech 500 g = false := h g (List.mem_cons_self g rest)
    have hrest : ∀ x ∈ rest, isSpeech 500 x = false :=
      fun x hx => h x (List.mem_cons_of_mem g hx)
    simp only [runFrames, addFrame_silent_idle g j s hg, ih (j + 1) s hrest]
    rw [List.length_cons]
    have hcnt : j + 1 + rest.length = j + (rest.length + 1) := by omega
    rw [hcnt]
    simp [List.replicate_succ]

theorem addFrame_silent_speaking (g : List ℤ) (F : List (List ℤ)) (j s : Nat)
    (hg : isSpeech 500 g = false) (hj : j + 1 ≤ 24) :
    addFrame (mkBuf F true j s) g =
      (none, mkBuf (F ++ [g]) true (j + 1) s) := by
  have h25 : ¬ 25 ≤ j + 1 := by omega
  simp [addFrame, mkBuf, hg, h25]

theorem runFrames_silent_speaking (gs : List (List ℤ)) :
    ∀ (j s : Nat) (F : List (List ℤ)),
      (∀ g ∈ gs, isSpeech 500 g = false) → j + gs.length ≤ 24 →
      runFrames gs (mkBuf F true j s) =
        (List.replicate gs.length none,
          mkBuf (F ++ gs) true (j + gs.length) s) := by
  induction gs with
  | nil => intro j s F _ _; simp [runFrames]
  | cons g rest ih =>
    intro j s F h hj
    have hg : isSpeech 500 g = false := h g (List.mem_cons_self g rest)
    have hrest : ∀ x ∈ rest, isSpeech 500 x = false :=
      fun x hx => h x (List.mem_cons_of_mem g hx)
    rw [List.length_cons] at hj ⊢
    have hj1 : j + 1 ≤ 24 := by omega
    simp only [runFrames, addFrame_silent_speaking g F j s hg hj1,
      ih (j + 1) s (F ++ [g]) hrest (by omega)]
    have hcnt : j + 1 + rest.length = j + (rest.length + 1) := by omega
    rw [hcnt]
    simp [List.append_assoc, List.replicate_succ]

theorem addFrame_flush (g : List ℤ) (F : List (List ℤ)) (s : Nat)
    (hg : isSpeech 500 g = false) :
    addFrame (mkBuf F true 24 s) g =
      (some (getAudioFrames 48000 (F ++ [g])), mkBuf [] false 0 0) := by
  simp [addFrame, mkBuf, hg, resetBuf]

theorem runFrames_flush (gs : List (List ℤ)) (F : List (List ℤ)) (s : Nat)
    (hgs : ∀ g ∈ gs, isSpeech 500 g = false) (hlen : gs.length = 25) :
    runFrames gs (mkBuf F true 0 s) =
      (List.replicate 24 none ++ [some (getAudioFrames 48000 (F ++ gs))],
        mkBuf [] false 0 0) := by
  have hdrop : (gs.drop 24).length = 1 := by rw [List.length_drop]; omega
  obtain ⟨g, hg⟩ := List.length_eq_one.mp hdrop
  have h24 : (gs.take 24).length = 24 := by rw [List.length_take]; omega
  have hsplit : gs.take 24 ++ [g] = gs := by rw [← hg, List.take_append_drop]
  rw [← hsplit, runFrames_append]
  rw [runFrames_silent_speaking (gs.take 24) 0 s F
    (fun x hx => hgs x (by rw [← hsplit]; exact List.mem_append_left _ hx))
    (by omega)]
  have hgg : isSpeech 500 g = false := by
    refine hgs g ?_
    rw [← hsplit]
    exact List.mem_append_right _ (List.mem_singleton_self g)
  rw [h24]
  have hone : runFrames [g] (mkBuf (F ++ gs.take 24) true (0 + 24) s) =
      ([some (getAudioFrames 48000 ((F ++ gs.take 24) ++ [g]))],
        mkBuf [] false 0 0) := by
    rw [show (0 + 24 : Nat) = 24 from rfl]
    simp only [runFrames, addFrame_flush g (F ++ gs.take 24) s hgg]
  rw [hone]
  simp [List.append_assoc]

/-! ## Claim C9 -/

/-- Claim C9: for a frame sequence in which every frame's energy is at
or below the threshold, `add_frame` returns `None` on every call, and
`is_speaking` remains `false` after every prefix of the sequence. -/
theorem C9_theorem (gs : List (List ℤ))
    (hgs : ∀ g ∈ gs, isSpeech 500 g = false) :
    (runFrames gs initBuf).1 = List.replicate gs.length none
    ∧ ∀ n, (runFrames (gs.take n) initBuf).2.is_speaking = false := by
  constructor
  · rw [initBuf_eq, runFrames_silent_idle gs 0 0 hgs]
  · intro n
    have h : ∀ g ∈ gs.take n, isSpeech 500 g = false :=
      fun g hg => hgs g (List.take_subset n gs hg)
    rw [initBuf_eq, runFrames_silent_idle (gs.take n) 0 0 h]
    rfl

/-- Witness for `C9_theorem` on two silent frames. -/
theorem C9_witness :
    (runFrames [[(0 : ℤ)], [0]] initBuf).1 = List.replicate 2 none
    ∧ ∀ n, (runFrames ([[(0 : ℤ)], [0]].take n) initBuf).2.is_speaking
        = false :=
  C9_theorem [[0], [0]] (by decide)

/-! ## Claim C8 -/

/-- Claim C8 as stated is false: one above-threshold frame followed by
two silent frames produces no utterance and the frames buffer stays
empty, but the internal state is NOT reset to its initial values once
silence resumes — `speech_frames` stays at 1 (the silence branch of
`add_frame` never resets it) and `silence_frames` counts up, while the
initial values are 0. -/
theorem C8_counterexample :
    (runFrames [[(1000 : ℤ)], [0], [0]] initBuf).1 = [none, none, none]
    ∧ (runFrames [[(1000 : ℤ)], [0], [0]] initBuf).2.speech_frames = 1
    ∧ initBuf.speech_frames = 0 := by
  refine ⟨by decide, by decide, rfl⟩

/-- Claim C8 (amended): for a blip of fewer than `min_speech_frames`
above-threshold frames followed by silence, `add_frame` returns no
utterance at any step and no frames are ever accumulated — the frames
buffer stays empty and `is_speaking` stays `false` — but the counters
are not reset to their initial values: `speech_frames` retains the blip
length and `silence_frames` counts the silent frames. -/
theorem C8_theorem (fs gs : List (List ℤ))
    (hk : fs.length < 5)
    (hfs : ∀ f ∈ fs, isSpeech 500 f = true)
    (hgs : ∀ g ∈ gs, isSpeech 500 g = false) :
    (runFrames (fs ++ gs) initBuf).1 =
      List.replicate (fs.length + gs.length) none
    ∧ (runFrames (fs ++ gs) initBuf).2 =
        { initBuf with speech_frames := fs.length,
                       silence_frames := gs.length } := by
  have hA : runFrames fs (mkBuf [] false 0 0) =
      (List.replicate fs.length none, mkBuf [] false 0 fs.length) := by
    rw [show (mkBuf [] false 0 0) = mkBuf [] (decide (5 ≤ 0)) 0 0 from rfl,
      runFrames_speech fs 0 [] hfs]
    have h1 : decide (5 ≤ 0 + fs.length) = false :=
      decide_eq_false (by omega)
    have h2 : fs.drop 4 = [] := List.drop_eq_nil_of_le (by omega)
    rw [h1, h2]
    norm_num
  have hfull : runFrames (fs ++ gs) (mkBuf [] false 0 0) =
      (List.replicate fs.length none ++ List.replicate gs.length none,
        mkBuf [] false gs.length fs.length) := by
    rw [runFrames_append, hA]
    dsimp only
    rw [runFrames_silent_idle gs 0 fs.length hgs]
    norm_num
  rw [initBuf_eq, hfull]
  exact ⟨by rw [← List.replicate_add], rfl⟩

/-- Witness for `C8_theorem` on a one-frame blip and one silent
frame. -/
theorem C8_witness :
    (runFrames ([[(1000 : ℤ)]] ++ [[0]]) initBuf).1 =
      List.replicate (List.length [[(1000 : ℤ)]] + List.length [[(0 : ℤ)]])
        none
    ∧ (runFrames ([[(1000 : ℤ)]] ++ [[0]]) initBuf).2 =
        { initBuf with speech_frames := List.length [[(1000 : ℤ)]],
                       silence_frames := List.length [[(0 : ℤ)]] } :=
  C8_theorem [[1000]] [[0]] (by decide) (by decide) (by decide)

/-! ## Claim C2 -/

/-- Claim C2 as stated is false: for 5 above-threshold frames followed
by 25 silent ones, the flush returns the audio of just 1 speech frame
plus the 25 silent frames — the first `min_speech_frames - 1 = 4`
speech frames are dropped, because frames are only appended once
`is_speaking` is set, which happens on the 5th speech frame — and that
differs from the claimed audio of all 5 speech frames plus the trailing
silence. -/
theorem C2_counterexample :
    (runFrames (List.replicate 5 [1000] ++ List.replicate 25 [0])
        initBuf).1
      = List.replicate 29 none ++
        [some (getAudioFrames 48000
          (List.replicate 1 [1000] ++ List.replicate 25 [0]))]
    ∧ getAudioFrames 48000
        (List.replicate 1 [(1000 : ℤ)] ++ List.replicate 25 [0])
      ≠ getAudioFrames 48000
        (List.replicate 5 [(1000 : ℤ)] ++ List.replicate 25 [0]) := by
  refine ⟨by decide, by decide⟩

/-- Claim C2 (amended): for `N ≥ min_speech_frames` above-threshold
frames followed by `M ≥ max_silence_frames` silent frames, `add_frame`
returns an utterance exactly on the silent frame where the silence
count reaches `max_silence_frames` (the 25th), containing the speech
frames from the `min_speech_frames`-th onward (the first 4 are dropped
by the hysteresis gate) plus the 25 trailing silent frames consumed up
to that point; immediately after that call the state is fully reset,
and the remaining silent frames only advance the silence counter while
returning nothing. -/
theorem C2_theorem (fs gs : List (List ℤ))
    (hN : 5 ≤ fs.length)
    (hfs : ∀ f ∈ fs, isSpeech 500 f = true)
    (hM : 25 ≤ gs.length)
    (hgs : ∀ g ∈ gs, isSpeech 500 g = false) :
    (runFrames (fs ++ gs) initBuf).1 =
      List.replicate (fs.length + 24) none
        ++ [some (getAudioFrames 48000 (fs.drop 4 ++ gs.take 25))]
        ++ List.replicate (gs.length - 25) none
    ∧ (runFrames (fs ++ gs.take 25) initBuf).2 = initBuf
    ∧ (runFrames (fs ++ gs) initBuf).2 =
        { initBuf with silence_frames := gs.length - 25 } := by
  have hlen25 : (gs.take 25).length = 25 := by
    rw [List.length_take]
    omega
  have htake : ∀ g ∈ gs.take 25, isSpeech 500 g = false :=
    fun g hg => hgs g (List.take_subset 25 gs hg)
  have hdropmem : ∀ g ∈ gs.drop 25, isSpeech 500 g = false :=
    fun g hg => hgs g (List.drop_subset 25 gs hg)
  have hA : runFrames fs (mkBuf [] false 0 0) =
      (List.replicate fs.length none,
        mkBuf (fs.drop 4) true 0 fs.length) := by
    rw [show (mkBuf [] false 0 0) = mkBuf [] (decide (5 ≤ 0)) 0 0 from rfl,
      runFrames_speech fs 0 [] hfs]
    have h1 : decide (5 ≤ 0 + fs.length) = true := decide_eq_true (by omega)
    rw [h1]
    norm_num
  have hB : runFrames (gs.take 25) (mkBuf (fs.drop 4) true 0 fs.length) =
      (List.replicate 24 none ++
        [some (getAudioFrames 48000 (fs.drop 4 ++ gs.take 25))],
        mkBuf [] false 0 0) :=
    runFrames_flush (gs.take 25) (fs.drop 4) fs.length htake hlen25
  have hC : runFrames (gs.drop 25) (mkBuf [] false 0 0) =
      (List.replicate (gs.length - 25) none,
        mkBuf [] false (gs.length - 25) 0) := by
    have h := runFrames_silent_idle (gs.drop 25) 0 0 hdropmem
    rw [List.length_drop] at h
    simpa using h
  have h1 : runFrames (fs ++ gs.take 25) (mkBuf [] false 0 0) =
      (List.replicate fs.length none ++
        (List.replicate 24 none ++
          [some (getAudioFrames 48000 (fs.drop 4 ++ gs.take 25))]),
        mkBuf [] false 0 0) := by
    rw [runFrames_append, hA]
    dsimp only
    rw [hB]
  have h2 : runFrames ((fs ++ gs.take 25) ++ gs.drop 25)
        (mkBuf [] false 0 0) =
      ((List.replicate fs.length none ++
          (List.replicate 24 none ++
            [some (getAudioFrames 48000 (fs.drop 4 ++ gs.take 25))])) ++
          List.replicate (gs.length - 25) none,
        mkBuf [] false (gs.length - 25) 0) := by
    rw [runFrames_append, h1]
    dsimp only
    rw [hC]
  have hassoc : fs ++ gs = (fs ++ gs.take 25) ++ gs.drop 25 := by
    rw [List.append_assoc, List.take_append_drop]
  refine ⟨?_, ?_, ?_⟩
  · rw [initBuf_eq, hassoc, h2]
    simp [List.append_assoc, List.replicate_add]
  · rw [initBuf_eq, h1]
  · rw [initBuf_eq, hassoc, h2]
    rfl

/-- Witness for `C2_theorem` on 5 speech frames and 25 silent
frames. -/
theorem C2_witness :
    (runFrames (List.replicate 5 [(1000 : ℤ)] ++ List.replicate 25 [0])
        initBuf).1 =
      List.replicate ((List.replicate 5 [(1000 : ℤ)]).length + 24) none
        ++ [some (getAudioFrames 48000
            ((List.replicate 5 [(1000 : ℤ)]).drop 4 ++
              (List.replicate 25 [(0 : ℤ)]).take 25))]
        ++ List.replicate ((List.replicate 25 [(0 : ℤ)]).length - 25) none
    ∧ (runFrames (List.replicate 5 [(1000 : ℤ)] ++
          (List.replicate 25 [(0 : ℤ)]).take 25) initBuf).2 = initBuf
    ∧ (runFrames (List.replicate 5 [(1000 : ℤ)] ++ List.replicate 25 [0])
          initBuf).2 =
        { initBuf with
          silence_frames := (List.replicate 25 [(0 : ℤ)]).length - 25 } :=
  C2_theorem (List.replicate 5 [1000]) (List.replicate 25 [0])
    (by decide) (by decide) (by decide) (by decide)

/-! ## Claim C5 -/

theorem runGen_filter (sched : List (Bool × Option (List ℤ))) :
    ∀ c, runGen sched c = runGen (sched.filter (fun s => !s.1)) c := by
  induction sched with
  | nil => intro c; rfl
  | cons s rest ih =>
    intro c
    rcases s with ⟨sp, r⟩
    cases sp
    · have hkeep : ((false, r) :: rest).filter (fun s => !s.1) =
          (false, r) :: rest.filter (fun s => !s.1) := by simp
      rw [hkeep]
      rcases hgs : genStep false r c with ⟨y, c'⟩
      simp only [runGen, hgs]
      rw [ih c']
    · have hdrop : ((true, r) :: rest).filter (fun s => !s.1) =
          rest.filter (fun s => !s.1) := by simp
      rw [hdrop]
      have hstep : genStep true r c = (none, c) := rfl
      simp only [runGen, hstep]
      rw [← ih c]

/-- Claim C5: an iteration of the microphone generator loop that
observes `_is_speaking = true` consumes its read and discards it,
yielding nothing and leaving the empty-read counter untouched — a run
over any schedule of (observed speaking flag, read result) pairs is
identical to the run over only its non-speaking iterations, and in
particular a schedule observed entirely during playback yields no chunk
at all, so no frame read while the robot speaks can trigger utterance
processing. -/
theorem C5_theorem (sched : List (Bool × Option (List ℤ))) (c : Nat) :
    runGen sched c = runGen (sched.filter (fun s => !s.1)) c
    ∧ ((∀ s ∈ sched, s.1 = true) → (runGen sched c).1 = []) := by
  refine ⟨runGen_filter sched c, fun hall => ?_⟩
  have hnil : sched.filter (fun s => !s.1) = [] := by
    rw [List.filter_eq_nil_iff]
    intro s hs
    simp [hall s hs]
  rw [runGen_filter sched c, hnil]
  rfl

/-- Witness for `C5_theorem` on an all-speaking two-step schedule. -/
theorem C5_witness :
    (runGen [((true : Bool), some [(5 : ℤ)]), (true, none)] 0).1 = [] :=
  (C5_theorem [(true, some [5]), (true, none)] 0).2 (by decide)

end ReachyBrain
